import Mathlib

/-!
Verification of the mira-OSS sandboxed execution gateway.

This file shallowly embeds the parts of the repository that the claims
C1-C10 are about:

* `services/sensitivity_classifier.py` (command / file-operation
  classification by regular-expression search),
* `tools/implementations/system_gateway_tool.py` (the tool-side
  classifier and execute pipeline),
* `deploy/system-gateway/routers/execute.py` (command validation and
  output truncation),
* `deploy/system-gateway/routers/files.py` (line-based file edits),
* `deploy/system-gateway/services/path_validator.py` (workspace
  confinement),
* `deploy/system-gateway/services/tree_indexer.py` (`get_structure`),
* `services/hitl_approval_service.py` (approval queue state machine),
* `services/approval_interceptor.py` (conversational approval).

Strings are modelled as `List Char` (Python `str` is a sequence of code
points).  The Python `re` usage in the sources is embedded by a small
Brzozowski-derivative matcher over an explicit regex syntax; every
pattern literal of the sources is transcribed into that syntax.  The
patterns of the sources only use anchors (`^`, `$`, `\b`) at the ends of
a pattern (or of a top-level alternative), so a pattern is modelled as a
core regex plus an optional start and end assertion, each of which only
inspects the character before and after the matched span.  `$` is
modelled as end-of-string: the repository never feeds strings with a
trailing newline to these patterns (Python's `$` would also accept a
position before one final newline).
-/

namespace Mira

/-- Character classes occurring in the repository's patterns:
a literal character, `\s`, `.` (any char except newline),
`[..]` (one of an explicit list), `[^c]` (any char but `c`). -/
inductive CC where
  | lit (c : Char)
  | space
  | anyc
  | oneOf (cs : List Char)
  | notChar (c : Char)
deriving DecidableEq

/-- Python `\s` on ASCII input together with the other classes. -/
def ccMatch : CC → Char → Bool
  | .lit c, d => c = d
  | .space, d => d = ' ' || d = '\t' || d = '\n' || d = '\r' || d = '\x0b' || d = '\x0c'
  | .anyc, d => d ≠ '\n'
  | .oneOf cs, d => cs.contains d
  | .notChar c, d => c ≠ d

/-- Regexes of the repository's patterns: the only starred subterms in
the sources are single character classes (`\s*`, `\s+`, `.*`), so the
star constructor is specialised to a class. -/
inductive Re where
  | emp
  | eps
  | ch (cc : CC)
  | cat (a b : Re)
  | alt (a b : Re)
  | starCh (cc : CC)
deriving DecidableEq

def nullable : Re → Bool
  | .emp => false
  | .eps => true
  | .ch _ => false
  | .cat a b => nullable a && nullable b
  | .alt a b => nullable a || nullable b
  | .starCh _ => true

/-- Smart concatenation, keeps derivatives small. -/
def scat : Re → Re → Re
  | .emp, _ => .emp
  | .eps, b => b
  | a, b => .cat a b

/-- Smart alternation, keeps derivatives small. -/
def salt : Re → Re → Re
  | .emp, b => b
  | a, .emp => a
  | a, b => .alt a b

/-- Brzozowski derivative. -/
def deriv : Re → Char → Re
  | .emp, _ => .emp
  | .eps, _ => .emp
  | .ch cc, d => if ccMatch cc d then .eps else .emp
  | .cat a b, d => if nullable a then salt (scat (deriv a d) b) (deriv b d) else scat (deriv a d) b
  | .alt a b, d => salt (deriv a d) (deriv b d)
  | .starCh cc, d => if ccMatch cc d then .starCh cc else .emp

/-- The zero-width assertions appearing in the sources. -/
inductive Anch where
  | bol
  | eol
  | wordB
deriving DecidableEq

/-- Python `\w` (ASCII): letters, digits, underscore; `none` stands for
the position before the first / after the last character. -/
def isWordO : Option Char → Bool
  | none => false
  | some c => c.isAlphanum || c = '_'

/-- Whether an assertion holds between the characters `prev` and `next`. -/
def anchOk : Option Anch → Option Char → Option Char → Bool
  | none, _, _ => true
  | some .bol, prev, _ => prev == none
  | some .eol, _, next => next == none
  | some .wordB, prev, next => isWordO prev != isWordO next

/-- A source pattern: optional start assertion, assertion-free core,
optional end assertion. -/
structure Pat where
  startA : Option Anch
  core : Re
  endA : Option Anch
deriving DecidableEq

/-- Does `r` match some prefix of `s` such that `endA` holds right after
the matched prefix?  `prev` is the character before the current
position. -/
def matchPrefixA (r : Re) (endA : Option Anch) (prev : Option Char) : List Char → Bool
  | [] => nullable r && anchOk endA prev none
  | c :: s => (nullable r && anchOk endA prev (some c)) || matchPrefixA (deriv r c) endA (some c) s

/-- Match of `p` starting exactly at the current position. -/
def searchAt (p : Pat) (prev : Option Char) (s : List Char) : Bool :=
  anchOk p.startA prev s.head? && matchPrefixA p.core p.endA prev s

/-- Match of `p` starting at the current position or later. -/
def searchFrom (p : Pat) (prev : Option Char) : List Char → Bool
  | [] => searchAt p prev []
  | c :: s => searchAt p prev (c :: s) || searchFrom p (some c) s

/-- Python `re.search(p, s)`. -/
def research (p : Pat) (s : List Char) : Bool := searchFrom p none s

/-- Python `re.match(p, s)`: anchored at the start of the string. -/
def rematch (p : Pat) (s : List Char) : Bool := searchAt p none s

/-- Literal word as a regex. -/
def litRe (w : List Char) : Re := w.foldr (fun c r => Re.cat (Re.ch (CC.lit c)) r) Re.eps

def lit (s : String) : Re := litRe s.toList

/-- Regex `\s+`. -/
def sP : Re := Re.cat (Re.ch .space) (Re.starCh .space)

/-- Regex `\s*`. -/
def sS : Re := Re.starCh .space

/-- Regex `.*`. -/
def dotS : Re := Re.starCh .anyc

/-- Regex `(..)?`. -/
def opt (r : Re) : Re := Re.alt r Re.eps

/-- Right-nested concatenation of a pattern sequence. -/
def rcat (rs : List Re) : Re := rs.foldr Re.cat Re.eps

/-- Plain substring pattern (`re.search` of an unanchored literal). -/
def litP (s : String) : Pat := ⟨none, lit s, none⟩

/-- Suffix pattern (`re.search` of a literal anchored with `$`). -/
def litSufP (s : String) : Pat := ⟨none, lit s, some .eol⟩

/-! ## Python string helpers -/

/-- Python `str.lower()` on ASCII letters (the classifier inputs). -/
def pyLowerChar (c : Char) : Char := if 'A' ≤ c && c ≤ 'Z' then Char.ofNat (c.toNat + 32) else c

def pyLower (s : List Char) : List Char := s.map pyLowerChar

def pyIsSpace (c : Char) : Bool :=
  c = ' ' || c = '\t' || c = '\n' || c = '\r' || c = '\x0b' || c = '\x0c'

/-- Python `str.strip()` (ASCII whitespace). -/
def pyStrip (s : List Char) : List Char :=
  ((s.dropWhile pyIsSpace).reverse.dropWhile pyIsSpace).reverse

/-- Python `str.split()` (split on whitespace runs, dropping empties). -/
def pySplitWsAux (acc : List Char) : List Char → List (List Char)
  | [] => if acc.isEmpty then [] else [acc.reverse]
  | c :: rest =>
    if pyIsSpace c then
      if acc.isEmpty then pySplitWsAux [] rest else acc.reverse :: pySplitWsAux [] rest
    else pySplitWsAux (c :: acc) rest

def pySplitWs (s : List Char) : List (List Char) := pySplitWsAux [] s

/-- Python `str.split(sep)` for a one-character separator (keeps empty
pieces, always returns at least one piece). -/
def pySplitOnAux (sep : Char) (acc : List Char) : List Char → List (List Char)
  | [] => [acc.reverse]
  | c :: rest => if c = sep then acc.reverse :: pySplitOnAux sep [] rest else pySplitOnAux sep (c :: acc) rest

def pySplitOn (sep : Char) (s : List Char) : List (List Char) := pySplitOnAux sep [] s

/-- Python `parts[0].split("/")[-1]` / `os.path.basename` on an already split word. -/
def lastPart (sep : Char) (s : List Char) : List Char := (pySplitOn sep s).getLastD []

/-- Executable substring test (used to state properties; also the model
of Python's `pattern in command`). -/
def containsSub (w : List Char) : List Char → Bool
  | [] => w.isPrefixOf []
  | c :: s => w.isPrefixOf (c :: s) || containsSub w s

/-- Executable suffix test. -/
def endsWithB (w : List Char) : List Char → Bool
  | [] => w == []
  | c :: s => w == c :: s || endsWithB w s

/-- String membership in a list of strings (Python `x in {..}`). -/
def memStr (w : List Char) (ws : List String) : Bool := ws.any (fun t => t.toList == w)

/-- Sensitivity levels (`services/sensitivity_classifier.py`,
`system_gateway_tool.py`). -/
inductive SensitivityLevel where
  | auto
  | prompt
  | high
  | blocked
deriving DecidableEq

/-- The apostrophe character (used by interceptor patterns). -/
def apos : Char := Char.ofNat 39

namespace Svc

/-! Transcription of `services/sensitivity_classifier.py`.  Each Python
regex literal is transcribed into a `Pat`; the original text is kept in
a comment next to each pattern. -/

/-- List `BLOCKED_COMMAND_PATTERNS`.  The fork-bomb pattern
`\b:(){ :|:& };:` contains a top-level regex alternation (`(` `)` is an
empty group and `{` is literal in Python `re`), so it is transcribed as
the two alternatives `\b:{ :` and `:& };:`. -/
def BLOCKED_COMMAND_PATTERNS : List Pat :=
  [ ⟨some .bol, Re.cat sS (lit "sudo"), some .wordB⟩,                    -- ^\s*sudo\b
    ⟨some .wordB, Re.cat (lit "sudo") sP, none⟩,                          -- \bsudo\s+
    ⟨some .wordB, rcat [lit "rm", sP, lit "-rf", sP, lit "/", sS], some .eol⟩, -- \brm\s+-rf\s+/\s*$
    ⟨some .wordB, rcat [lit "rm", sP, lit "-rf", sP, lit "/", Re.ch (CC.notChar '/')], none⟩, -- \brm\s+-rf\s+/[^/]
    ⟨some .wordB, rcat [lit "curl", sP, dotS, lit "|", sS, opt (lit "ba"), lit "sh"], none⟩, -- \bcurl\s+.*\|\s*(ba)?sh
    ⟨some .wordB, rcat [lit "wget", sP, dotS, lit "|", sS, opt (lit "ba"), lit "sh"], none⟩, -- \bwget\s+.*\|\s*(ba)?sh
    ⟨some .wordB, rcat [lit "nc", sP, lit "-", Re.ch (CC.oneOf ['e', 'l'])], none⟩,   -- \bnc\s+-[el]
    ⟨some .wordB, rcat [lit "ncat", sP, lit "-", Re.ch (CC.oneOf ['e', 'l'])], none⟩, -- \bncat\s+-[el]
    ⟨some .wordB, rcat [lit "netcat", sP, lit "-", Re.ch (CC.oneOf ['e', 'l'])], none⟩, -- \bnetcat\s+-[el]
    ⟨some .wordB, rcat [lit "chmod", sP, lit "777", sP, lit "/"], none⟩,  -- \bchmod\s+777\s+/
    ⟨some .wordB, rcat [lit "chown", sP, dotS, sP, lit "/"], none⟩,       -- \bchown\s+.*\s+/
    ⟨some .wordB, lit "mkfs", some .wordB⟩,                               -- \bmkfs\b
    ⟨some .wordB, rcat [lit "dd", sP, dotS, lit "of=/dev/"], none⟩,       -- \bdd\s+.*of=/dev/
    ⟨some .wordB, lit ":\x7b :", none⟩,                                   -- \b:(){ : (left alternative)
    ⟨none, lit ":& \x7d;:", none⟩ ]                                       -- :& };: (right alternative)

def HIGH_SENSITIVITY_PATTERNS : List Pat :=
  [ ⟨some .wordB, rcat [lit "rm", sP, lit "-rf"], some .wordB⟩,    -- \brm\s+-rf\b
    ⟨some .wordB, rcat [lit "rm", sP, lit "-r"], some .wordB⟩,     -- \brm\s+-r\b
    ⟨some .wordB, rcat [lit "git", sP, lit "push"], some .wordB⟩,  -- \bgit\s+push\b
    ⟨some .wordB, rcat [lit "git", sP, lit "push", sP, lit "--force"], none⟩, -- \bgit\s+push\s+--force
    ⟨some .wordB, rcat [lit "git", sP, lit "reset", sP, lit "--hard"], none⟩, -- \bgit\s+reset\s+--hard
    ⟨some .wordB, rcat [lit "docker", sP, lit "rm"], some .wordB⟩,  -- \bdocker\s+rm\b
    ⟨some .wordB, rcat [lit "docker", sP, lit "rmi"], some .wordB⟩, -- \bdocker\s+rmi\b
    ⟨some .wordB, rcat [lit "kill", sP, lit "-9"], some .wordB⟩,    -- \bkill\s+-9\b
    ⟨some .wordB, lit "pkill", some .wordB⟩,                        -- \bpkill\b
    ⟨some .wordB, lit "killall", some .wordB⟩,                      -- \bkillall\b
    ⟨some .wordB, lit "truncate", some .wordB⟩,                     -- \btruncate\b
    ⟨some .wordB, lit "shred", some .wordB⟩ ]                       -- \bshred\b

def PROMPT_PATTERNS : List Pat :=
  [ ⟨some .wordB, Re.cat (lit "mv") sP, none⟩,                      -- \bmv\s+
    ⟨some .wordB, rcat [lit "cp", sP, lit "-r"], none⟩,             -- \bcp\s+-r
    ⟨some .wordB, rcat [lit "npm", sP, lit "install"], some .wordB⟩, -- \bnpm\s+install\b
    ⟨some .wordB, rcat [lit "npm", sP, lit "i"], some .wordB⟩,      -- \bnpm\s+i\b
    ⟨some .wordB, rcat [lit "yarn", sP, lit "add"], some .wordB⟩,   -- \byarn\s+add\b
    ⟨some .wordB, rcat [lit "pip", sP, lit "install"], some .wordB⟩, -- \bpip\s+install\b
    ⟨some .wordB, rcat [lit "git", sP, lit "commit"], some .wordB⟩, -- \bgit\s+commit\b
    ⟨some .wordB, rcat [lit "git", sP, lit "merge"], some .wordB⟩,  -- \bgit\s+merge\b
    ⟨some .wordB, rcat [lit "git", sP, lit "rebase"], some .wordB⟩, -- \bgit\s+rebase\b
    ⟨some .wordB, rcat [lit "git", sP, lit "checkout"], some .wordB⟩, -- \bgit\s+checkout\b
    ⟨some .wordB, rcat [lit "git", sP, lit "branch", sP, lit "-", Re.ch (CC.oneOf ['d', 'D'])], none⟩, -- \bgit\s+branch\s+-[dD]
    ⟨some .wordB, lit "chmod", some .wordB⟩,                        -- \bchmod\b
    ⟨some .wordB, lit "chown", some .wordB⟩ ]                       -- \bchown\b

/-- List `AUTO_PATTERNS`, all of the form `^\s*word\b`. -/
def autoPat (s : String) : Pat := ⟨some .bol, Re.cat sS (lit s), some .wordB⟩

def AUTO_PATTERNS : List Pat :=
  [ autoPat "ls", autoPat "cat", autoPat "head", autoPat "tail", autoPat "grep",
    autoPat "find", autoPat "echo", autoPat "pwd", autoPat "wc", autoPat "date",
    autoPat "whoami", autoPat "which", autoPat "file", autoPat "stat" ]

def BLOCKED_FILE_PATTERNS : List Pat :=
  [ litSufP ".env",          -- \.env$
    litP ".env.",            -- \.env\.
    litSufP ".key",          -- \.key$
    litSufP ".pem",          -- \.pem$
    litSufP ".p12",          -- \.p12$
    litSufP ".pfx",          -- \.pfx$
    litP "id_rsa",           -- id_rsa
    litP "id_ed25519",       -- id_ed25519
    litP "id_ecdsa",         -- id_ecdsa
    litP "id_dsa",           -- id_dsa
    litSufP ".git/config",   -- \.git/config$
    litP ".git/credentials", -- \.git/credentials
    litSufP "secrets.yaml",  -- secrets\.yaml$
    litSufP "secrets.enc.yaml", -- secrets\.enc\.yaml$
    litP ".aws/credentials", -- \.aws/credentials
    litP ".ssh/" ]           -- \.ssh/

/-- List `HIGH_SENSITIVITY_FILE_PATTERNS`; the literals are lower-cased here
because the classifier model below matches on the lower-cased path,
which is equivalent to Python's `re.IGNORECASE` for literal patterns. -/
def HIGH_SENSITIVITY_FILE_PATTERNS : List Pat :=
  [ litP ".git/",            -- \.git/
    litSufP ".gitignore",    -- \.gitignore$
    litSufP "config.yaml",   -- config\.yaml$
    litSufP "config.json",   -- config\.json$
    litSufP "settings.py",   -- settings\.py$
    litSufP ".dockerignore", -- \.dockerignore$
    litSufP "dockerfile",    -- Dockerfile$ (IGNORECASE)
    litP "docker-compose" ]  -- docker-compose

/-- Function `classify_command` of `services/sensitivity_classifier.py`.  The
command is lower-cased first; `re.IGNORECASE` is then redundant for
these all-lowercase patterns. -/
def classify_command (command : String) : SensitivityLevel :=
  let c := pyLower command.toList
  if BLOCKED_COMMAND_PATTERNS.any (fun p => research p c) then .blocked
  else if HIGH_SENSITIVITY_PATTERNS.any (fun p => research p c) then .high
  else if PROMPT_PATTERNS.any (fun p => research p c) then .prompt
  else if AUTO_PATTERNS.any (fun p => research p c) then .auto
  else .prompt

/-- Function `classify_file_operation` of `services/sensitivity_classifier.py`.
The path is matched with `re.IGNORECASE`; since every file pattern is a
(possibly `$`-anchored) literal, this is modelled by lower-casing the
path and matching the lower-cased literals. -/
def classify_file_operation (operation : String) (path : String) : SensitivityLevel :=
  let p := pyLower path.toList
  if BLOCKED_FILE_PATTERNS.any (fun q => research q p) then .blocked
  else if operation = "read_file" ∨ operation = "read_structure" then
    if HIGH_SENSITIVITY_FILE_PATTERNS.any (fun q => research q p) then .prompt
    else .auto
  else if operation = "edit_file" then
    if HIGH_SENSITIVITY_FILE_PATTERNS.any (fun q => research q p) then .high
    else .prompt
  else .prompt

end Svc

namespace Tool

/-! Transcription of the classifier in
`tools/implementations/system_gateway_tool.py`. -/

def AUTO_APPROVE_COMMANDS : List String :=
  [ "ls", "cat", "head", "tail", "grep", "find", "wc", "pwd", "echo",
    "tree", "file", "stat", "du", "df", "which", "whoami", "date",
    "env", "printenv", "basename", "dirname", "realpath", "readlink" ]

def PROMPT_COMMANDS : List String :=
  [ "mv", "cp", "touch", "mkdir", "npm", "pip", "yarn", "pnpm",
    "python", "node", "bun", "cargo", "go", "make", "git status",
    "git log", "git diff", "git branch" ]

def HIGH_RISK_PATTERNS : List Pat :=
  [ ⟨some .bol, Re.cat (lit "rm") (Re.ch .space), none⟩,              -- ^rm\s
    ⟨some .bol, rcat [lit "git", sP, lit "push"], none⟩,              -- ^git\s+push
    ⟨some .bol, rcat [lit "git", sP, lit "checkout"], none⟩,          -- ^git\s+checkout
    ⟨some .bol, rcat [lit "git", sP, lit "reset"], none⟩,             -- ^git\s+reset
    ⟨some .bol, rcat [lit "git", sP, lit "rebase"], none⟩,            -- ^git\s+rebase
    ⟨some .bol, rcat [lit "git", sP, lit "merge"], none⟩,             -- ^git\s+merge
    ⟨some .bol, Re.cat (lit "chmod") (Re.ch .space), none⟩,           -- ^chmod\s
    ⟨some .bol, Re.cat (lit "chown") (Re.ch .space), none⟩ ]          -- ^chown\s

def BLOCKED_COMMANDS : List String :=
  [ "sudo", "su", "mount", "umount", "reboot", "shutdown", "halt",
    "init", "systemctl", "service", "passwd", "useradd", "userdel" ]

def BLOCKED_PATTERNS : List Pat :=
  [ ⟨none, rcat [lit "|", sS, lit "sh"], some .wordB⟩,    -- \|\s*sh\b
    ⟨none, rcat [lit "|", sS, lit "bash"], some .wordB⟩,  -- \|\s*bash\b
    ⟨none, rcat [lit "|", sS, lit "zsh"], some .wordB⟩,   -- \|\s*zsh\b
    litP "`",                                             -- `
    litP "$(",                                            -- \$\(
    ⟨none, rcat [lit ">", sS, lit "/dev/"], none⟩,        -- >\s*/dev/
    ⟨none, rcat [lit ">>", sS, lit "/dev/"], none⟩,       -- >>\s*/dev/
    litP "/etc/",                                         -- /etc/
    litP "/var/",                                         -- /var/
    litP "/usr/",                                         -- /usr/
    ⟨none, rcat [lit "~/", Re.ch .anyc, lit "ssh"], none⟩,    -- ~/.ssh (unescaped dot)
    ⟨none, rcat [lit "~/", Re.ch .anyc, lit "gnupg"], none⟩ ] -- ~/.gnupg (unescaped dot)

/-- Function `classify_command` of `system_gateway_tool.py`
(`command_lower = command.lower().strip()` is written out at each
use). -/
def classify_command (command : String) : SensitivityLevel :=
  if BLOCKED_PATTERNS.any (fun p => research p (pyStrip (pyLower command.toList))) then .blocked
  else
    match pySplitWs (pyStrip (pyLower command.toList)) with
    | [] => .blocked
    | p0 :: _ =>
      if memStr (lastPart '/' p0) BLOCKED_COMMANDS then .blocked
      else if HIGH_RISK_PATTERNS.any (fun p => rematch p (pyStrip (pyLower command.toList))) then .high
      else if memStr (lastPart '/' p0) AUTO_APPROVE_COMMANDS then .auto
      else if memStr (lastPart '/' p0) PROMPT_COMMANDS then .prompt
      else .prompt

/-- Function `classify_file_operation` of `system_gateway_tool.py` uses
`fnmatch` globs; the glob matcher is abstracted as a parameter. -/
def classify_file_operation (fnmatch : String → String → Bool)
    (operation : String) (path : String) : SensitivityLevel :=
  if operation = "read_structure" ∨ operation = "read_file" then .auto
  else if operation = "edit_file" then
    if (["*.env", "*.key", "*.pem", "*.crt", ".git/config",
         "**/secrets/**", "**/.ssh/**", "**/credentials*"].any
          (fun pat => fnmatch path pat)) then .high
    else .prompt
  else .auto

/-- Control flow of `SystemGatewayTool._execute`: a BLOCKED command is
answered directly; PROMPT/HIGH reach the gateway only when approved;
AUTO always reaches it.  `approved` abstracts the HITL outcome. -/
def executeReachesGateway (command : String) (approved : Bool) : Bool :=
  match classify_command command with
  | .blocked => false
  | .auto => true
  | _ => approved

end Tool

namespace ExecRouter

/-! Transcription of `deploy/system-gateway/routers/execute.py`. -/

def BLOCKED_COMMANDS : List String :=
  [ "sudo", "su", "chmod", "chown", "chgrp",
    "mount", "umount", "mkfs", "fdisk",
    "dd", "reboot", "shutdown", "halt", "init",
    "iptables", "ip6tables", "nft",
    "passwd", "useradd", "userdel", "usermod",
    "nc", "netcat", "ncat" ]

/-- List `DANGEROUS_PATTERNS`: checked with Python's `pattern in command`,
i.e. plain substring containment on the raw command. -/
def DANGEROUS_PATTERNS : List String :=
  [ "| sh", "| bash", "| zsh",
    "`", "$(",
    "> /dev/", ">> /dev/",
    "/etc/", "/var/", "/usr/",
    "~/.ssh", "~/.gnupg" ]

inductive CmdError where
  | invalidSyntax
  | emptyCommand
  | blockedCommand (base : List Char)
  | blockedPattern (pat : String)
deriving DecidableEq

/-- Function `validate_command`.  Here `shlexSplit` abstracts Python's `shlex.split`
(an external library; `none` models a `ValueError`). -/
def validate_command (shlexSplit : String → Option (List String)) (command : String) :
    Except CmdError Unit :=
  match shlexSplit command with
  | none => .error .invalidSyntax
  | some [] => .error .emptyCommand
  | some (p0 :: _) =>
    let base := lastPart '/' p0.toList
    if memStr base BLOCKED_COMMANDS then .error (.blockedCommand base)
    else
      match DANGEROUS_PATTERNS.find? (fun pat => containsSub pat.toList command.toList) with
      | some pat => .error (.blockedPattern pat)
      | none => .ok ()

/-- The tail line appended by `execute_command` when output is cut. -/
def sentinel : List Char := "\n... (output truncated)".toList

/-- One output stream of `execute_command`: cap at
`max_output_lines * 100` characters and append the sentinel. -/
def truncate_stream (maxOutputLines : Nat) (s : List Char) : List Char × Bool :=
  if s.length > maxOutputLines * 100 then (s.take (maxOutputLines * 100) ++ sentinel, true)
  else (s, false)

/-- The output-truncation step of `execute_command` on both streams;
`truncated` is set when either cap fires. -/
def executeTruncation (maxOutputLines : Nat) (stdout stderr : List Char) :
    List Char × List Char × Bool :=
  let o := truncate_stream maxOutputLines stdout
  let e := truncate_stream maxOutputLines stderr
  (o.1, e.1, o.2 || e.2)

end ExecRouter

namespace PathValidator

/-! Transcription of
`deploy/system-gateway/services/path_validator.py`.  Paths resolved by
the operating system are modelled as lists of components; `resolveFn`
abstracts `Path.resolve()` (full symlink and `..` resolution, `none`
models `OSError`/`RuntimeError`), and `fnmatch` abstracts the
`fnmatch.fnmatch` glob matcher. -/

/-- The path whose resolution is requested: either the caller's
absolute string, or the workspace root joined with the cleaned relative
string. -/
inductive Target where
  | abs (path : String)
  | rel (root : List String) (path : String)
deriving DecidableEq

inductive PathError where
  | cannotResolve
  | escapesWorkspace (resolved : List String)
  | blockedPattern (pat : String)
deriving DecidableEq

/-- POSIX `Path.is_absolute()`. -/
def isAbsolute (path : String) : Bool := path.toList.head? == some '/'

/-- The early-return inputs `"", ".", "./", "/"` of `validate`. -/
def specialInput (path : String) : Bool :=
  path = "" || path = "." || path = "./" || path = "/"

/-- Python `str(resolved.relative_to(workspace_root))` (equal paths give `"."`). -/
def relStr (comps : List String) : String :=
  if comps.isEmpty then "." else String.intercalate "/" comps

/-- Python `Path.name` (last component, `""` for the root). -/
def nameOf (comps : List String) : String := comps.getLastD ""

/-- The target `validate` submits to resolution for a non-special path. -/
def targetOf (W : List String) (path : String) : Target :=
  if isAbsolute path then Target.abs path
  else Target.rel W (String.mk (path.toList.dropWhile (fun c => c = '/')))

/-- Method `PathValidator.validate`.  Here `W` is the already-resolved workspace
root (`Path(workspace_root).resolve()` from `__init__`). -/
def validate (W : List String) (blocked : List String)
    (fnmatch : String → String → Bool) (resolveFn : Target → Option (List String))
    (path : String) : Except PathError (List String) :=
  if specialInput path then .ok W
  else
    match resolveFn (targetOf W path) with
    | none => .error .cannotResolve
    | some resolved =>
      if W.isPrefixOf resolved then
        match blocked.find? (fun pat =>
            fnmatch (relStr (resolved.drop W.length)) pat || fnmatch (nameOf resolved) pat) with
        | some pat => .error (.blockedPattern pat)
        | none => .ok resolved
      else .error (.escapesWorkspace resolved)

/-- The resolution `validate` uses for an input: special inputs are
defined to be the workspace root, all others go through `resolveFn`. -/
def codeResolution (W : List String) (resolveFn : Target → Option (List String))
    (path : String) : Option (List String) :=
  if specialInput path then some W else resolveFn (targetOf W path)

end PathValidator

/-! ## Stable insertion sort

Model of Python's stable `sorted` (and of a deterministic reading of
SQLite `ORDER BY`): a later element is inserted after every earlier
element it ties with. -/

def insertStable (le : α → α → Bool) (x : α) : List α → List α
  | [] => [x]
  | y :: ys => if le x y && !le y x then x :: y :: ys else y :: insertStable le x ys

def isortBy (le : α → α → Bool) (l : List α) : List α :=
  l.foldl (fun acc x => insertStable le x acc) []

namespace Hitl

/-! Transcription of `services/hitl_approval_service.py`.  The Valkey
store is modelled as an association list from approval id to record;
TTL-based expiry shows up as absence of the record.  The mutable
`details` map (approver, timestamps, reason) is not modelled. -/

inductive ApprovalStatus where
  | pending
  | approved
  | rejected
  | expired
deriving DecidableEq

structure ApprovalRequest where
  id : String
  user_id : String
  operation : String
  sensitivity : String
  status : ApprovalStatus
  created_at_micros : Nat
  expires_at_micros : Nat
deriving DecidableEq

/-- Python `ttl_seconds or self.default_ttl` (`0` is falsy). -/
def effectiveTtl (defaultTtl : Nat) (ttlSeconds : Option Nat) : Nat :=
  match ttlSeconds with
  | none => defaultTtl
  | some v => if v = 0 then defaultTtl else v

/-- The record built by `queue_approval`: `created_at = now` but
`expires_at = now.replace(microsecond=0) + timedelta(seconds=ttl)`,
with timestamps in microseconds since the epoch. -/
def queue_approval (defaultTtl : Nat) (ttlSeconds : Option Nat) (nowMicros : Nat)
    (id user_id operation sensitivity : String) : ApprovalRequest :=
  let ttl := effectiveTtl defaultTtl ttlSeconds
  ⟨id, user_id, operation, sensitivity, .pending, nowMicros,
    (nowMicros - nowMicros % 1000000) + ttl * 1000000⟩

abbrev Store := List (String × ApprovalRequest)

/-- Method `get_status`: fetch by key; `none` models an expired / unknown id. -/
def get_status (store : Store) (id : String) : Option ApprovalRequest :=
  (store.find? (fun p => p.1 == id)).map (fun p => p.2)

/-- Re-persisting a record with a new status (the code also resets the
key's TTL to 60 s; expiry is modelled as deletion elsewhere). -/
def setStatus (store : Store) (id : String) (st : ApprovalStatus) : Store :=
  store.map (fun p => if p.1 == id then (p.1, { p.2 with status := st }) else p)

/-- Method `approve`: only a present, pending record transitions. -/
def approve (store : Store) (id : String) : Bool × Store :=
  match get_status store id with
  | none => (false, store)
  | some r => if r.status = .pending then (true, setStatus store id .approved) else (false, store)

/-- Method `reject`: only a present, pending record transitions. -/
def reject (store : Store) (id : String) : Bool × Store :=
  match get_status store id with
  | none => (false, store)
  | some r => if r.status = .pending then (true, setStatus store id .rejected) else (false, store)

end Hitl

namespace Interceptor

/-! Transcription of `services/approval_interceptor.py`. -/

def APPROVE_PATTERNS : List Pat :=
  [ ⟨some .bol, lit "yes", some .eol⟩, ⟨some .bol, lit "y", some .eol⟩,
    ⟨some .bol, lit "approve", some .eol⟩, ⟨some .bol, lit "approved", some .eol⟩,
    ⟨some .bol, lit "ok", some .eol⟩, ⟨some .bol, lit "okay", some .eol⟩,
    ⟨some .bol, lit "go ahead", some .eol⟩, ⟨some .bol, lit "do it", some .eol⟩,
    ⟨some .bol, lit "proceed", some .eol⟩, ⟨some .bol, lit "confirm", some .eol⟩,
    ⟨some .bol, lit "confirmed", some .eol⟩, ⟨some .bol, lit "allow", some .eol⟩,
    ⟨some .bol, lit "allowed", some .eol⟩, ⟨some .bol, lit "accept", some .eol⟩,
    ⟨some .bol, lit "accepted", some .eol⟩,
    ⟨some .bol, rcat [lit "yes", opt (lit ","), sS, lit "please"], some .eol⟩,   -- ^yes,?\s*please$
    ⟨some .bol, rcat [lit "yes", opt (lit ","), sS, lit "go ahead"], some .eol⟩ ] -- ^yes,?\s*go ahead$

def REJECT_PATTERNS : List Pat :=
  [ ⟨some .bol, lit "no", some .eol⟩, ⟨some .bol, lit "n", some .eol⟩,
    ⟨some .bol, lit "reject", some .eol⟩, ⟨some .bol, lit "rejected", some .eol⟩,
    ⟨some .bol, lit "deny", some .eol⟩, ⟨some .bol, lit "denied", some .eol⟩,
    ⟨some .bol, lit "cancel", some .eol⟩, ⟨some .bol, lit "cancelled", some .eol⟩,
    ⟨some .bol, lit "stop", some .eol⟩, ⟨some .bol, lit "abort", some .eol⟩,
    ⟨some .bol, rcat [lit "don", opt (Re.ch (CC.lit apos)), lit "t"], some .eol⟩, -- ^don'?t$
    ⟨some .bol, rcat [lit "no", opt (lit ","), sS, lit "thanks"], some .eol⟩,     -- ^no,?\s*thanks$
    ⟨some .bol, rcat [lit "no", opt (lit ","), sS, lit "don", opt (Re.ch (CC.lit apos)), lit "t"], some .eol⟩, -- ^no,?\s*don'?t$
    ⟨some .bol, lit "nevermind", some .eol⟩,
    ⟨some .bol, rcat [lit "never", sS, lit "mind"], some .eol⟩ ]                  -- ^never\s*mind$

/-- Helper `_matches_patterns`: lower, strip, then `re.match` each pattern. -/
def matches_patterns (text : String) (pats : List Pat) : Bool :=
  let t := pyStrip (pyLower text.toList)
  pats.any (fun p => rematch p t)

/-- Per-user view of the approval store: the Valkey hash entries plus
this user's pending-id set, in the (arbitrary) order `smembers`
enumerates it. -/
structure HitlState where
  kv : Hitl.Store
  userIndex : List String
deriving DecidableEq

/-- Method `get_pending_for_user`: keep the pending records in index order and
lazily drop vanished ids from the user index. -/
def get_pending_for_user (st : HitlState) : List Hitl.ApprovalRequest × HitlState :=
  let pending := st.userIndex.filterMap (fun id =>
    match Hitl.get_status st.kv id with
    | some r => if r.status = .pending then some r else none
    | none => none)
  let newIndex := st.userIndex.filter (fun id => (Hitl.get_status st.kv id).isSome)
  (pending, ⟨st.kv, newIndex⟩)

def approveMsg (operation : String) : String :=
  "✓ Approved: " ++ operation ++ "\n\nExecuting operation..."

def rejectMsg (operation : String) : String :=
  "✗ Rejected: " ++ operation ++ "\n\nOperation cancelled."

def approveFailMsg : String := "Failed to process approval. The request may have expired."

def rejectFailMsg : String := "Failed to process rejection. The request may have expired."

/-- Function `check_for_approval_response`: on an approve/reject message resolve
`pending[0]` — the first element of the user-index enumeration.
(The intermediate state `get_pending_for_user st` of the Python code is
written out at each use.) -/
def check_for_approval_response (st : HitlState) (message : String) :
    Option (Bool × String) × HitlState :=
  match (get_pending_for_user st).1 with
  | [] => (none, (get_pending_for_user st).2)
  | latest :: _ =>
    if !matches_patterns message APPROVE_PATTERNS &&
       !matches_patterns message REJECT_PATTERNS then (none, (get_pending_for_user st).2)
    else if matches_patterns message APPROVE_PATTERNS then
      match Hitl.approve (get_pending_for_user st).2.kv latest.id with
      | (true, kv2) =>
        (some (true, approveMsg latest.operation), ⟨kv2, (get_pending_for_user st).2.userIndex⟩)
      | (false, kv2) =>
        (some (false, approveFailMsg), ⟨kv2, (get_pending_for_user st).2.userIndex⟩)
    else
      match Hitl.reject (get_pending_for_user st).2.kv latest.id with
      | (true, kv2) =>
        (some (false, rejectMsg latest.operation), ⟨kv2, (get_pending_for_user st).2.userIndex⟩)
      | (false, kv2) =>
        (some (false, rejectFailMsg), ⟨kv2, (get_pending_for_user st).2.userIndex⟩)

end Interceptor

namespace FilesRouter

/-! Transcription of the `/edit` handler in
`deploy/system-gateway/routers/files.py`.  File contents are modelled
as Python `readlines()` output: a list of lines, each line a list of
characters (normally ending in a newline). -/

inductive EditAction where
  | replace
  | insert
  | delete
deriving DecidableEq

structure EditOperation where
  action : EditAction
  line_start : Nat
  line_end : Option Nat
  content : Option String
deriving DecidableEq

/-- Python `edit.line_end or edit.line_start` (`0` is falsy; the HTTP
layer additionally validates `line_end ≥ 1`). -/
def pyFalsyOr (v : Option Nat) (dflt : Nat) : Nat :=
  match v with
  | none => dflt
  | some x => if x = 0 then dflt else x

/-- Python slice assignment `xs[i:j] = ys` for non-negative `i`, `j`:
indices clamp to the list length, and an inverted range inserts at
`i`. -/
def pySliceSet (xs : List α) (i j : Nat) (ys : List α) : List α :=
  xs.take (min i xs.length) ++ ys ++ xs.drop (max (min i xs.length) (min j xs.length))

/-- Python `str.splitlines(keepends=True)`, restricted to `\n`
terminators (the gateway's file lines come from `readlines()` and use
`\n`; other Unicode line terminators are not modelled). -/
def splitKeepAux (acc : List Char) : List Char → List (List Char)
  | [] => if acc.isEmpty then [] else [acc.reverse]
  | c :: rest =>
    if c = '\n' then (acc.reverse ++ ['\n']) :: splitKeepAux [] rest
    else splitKeepAux (c :: acc) rest

def pySplitLinesKeepends (s : List Char) : List (List Char) := splitKeepAux [] s

/-- Python `if content_lines and not content_lines[-1].endswith("\n")`:
append a newline to the last produced line. -/
def ensureTrailingNl : List (List Char) → List (List Char)
  | [] => []
  | [l] => if endsWithB ['\n'] l then [l] else [l ++ ['\n']]
  | l :: rest => l :: ensureTrailingNl rest

/-- Python `(edit.content or "").splitlines(keepends=True)` plus the trailing
newline fix-up. -/
def contentLines (content : Option String) : List (List Char) :=
  ensureTrailingNl (pySplitLinesKeepends (content.getD "").toList)

/-- One iteration of the edit loop. -/
def apply_edit (lines : List (List Char)) (e : EditOperation) : List (List Char) :=
  let idx := e.line_start - 1
  match e.action with
  | .delete => pySliceSet lines idx (pyFalsyOr e.line_end e.line_start) []
  | .replace => pySliceSet lines idx (pyFalsyOr e.line_end e.line_start) (contentLines e.content)
  | .insert => pySliceSet lines idx idx (contentLines e.content)

/-- Python `sorted(body.edits, key=lambda e: e.line_start, reverse=True)`:
stable descending order on `line_start`. -/
def descByLineStart (a b : EditOperation) : Bool := Nat.ble b.line_start a.line_start

/-- The edit loop of `edit_file`: sort descending by `line_start`
(stable), then apply in that order. -/
def apply_edits (lines : List (List Char)) (edits : List EditOperation) : List (List Char) :=
  (isortBy descByLineStart edits).foldl apply_edit lines

structure EditResult where
  edits_applied : Nat
  new_lines : List (List Char)
deriving DecidableEq

/-- The successful-path result of the `/edit` endpoint:
`edits_applied = len(body.edits)` unconditionally. -/
def edit_file (original : List (List Char)) (edits : List EditOperation) : EditResult :=
  ⟨edits.length, apply_edits original edits⟩

end FilesRouter

namespace TreeIndexer

/-! Transcription of `TreeIndexer.get_structure` in
`deploy/system-gateway/services/tree_indexer.py`.  The SQLite table is
modelled as a list of rows; `ORDER BY type DESC, path` is modelled by a
deterministic sort under the corresponding comparator (SQLite's BINARY
collation is codepoint order for the ASCII data at hand). -/

structure Row where
  path : String
  name : String
  type : String
  size : Option Nat
  depth : Nat
deriving DecidableEq

/-- Strict codepoint-lexicographic order on character lists. -/
def lexLt : List Char → List Char → Bool
  | [], [] => false
  | [], _ :: _ => true
  | _ :: _, [] => false
  | a :: as, b :: bs => a < b || (a = b && lexLt as bs)

/-- Non-strict codepoint-lexicographic order on character lists. -/
def lexLe : List Char → List Char → Bool
  | [], _ => true
  | _ :: _, [] => false
  | a :: as, b :: bs => a < b || (a = b && lexLe as bs)

/-- Comparator for `ORDER BY type DESC, path`: `a` may precede `b` iff `a.type` is
strictly greater than `b.type`, or the types are equal and
`a.path ≤ b.path`. -/
def rowLe (a b : Row) : Bool :=
  lexLt b.type.toList a.type.toList || (a.type.toList == b.type.toList && lexLe a.path.toList b.path.toList)

/-- Python `path.strip("/")`. -/
def stripSlashes (s : String) : String :=
  String.mk (((s.toList.dropWhile (fun c => c = '/')).reverse.dropWhile (fun c => c = '/')).reverse)

/-- Python `len(Path(base_path).parts)` for a relative base: empty and `.`
segments are dropped by `pathlib`. -/
def numParts (base : String) : Nat :=
  ((pySplitOn '/' base.toList).filter (fun p => !(p.isEmpty || p == ['.']))).length

structure Entry where
  path : String
  name : String
  type : String
  size : Option Nat
deriving DecidableEq

/-- The response dict built per row (`size` only for files with a
recorded size). -/
def mkEntry (r : Row) : Entry :=
  ⟨r.path, r.name, r.type, if r.type == "file" then r.size else none⟩

structure StructResult where
  tree : List Entry
  total_files : Nat
  total_dirs : Nat
  returned : Nat
deriving DecidableEq

/-- The clamped depth `max(1, min(5, depth))`. -/
def clampDepth (depth : Nat) : Nat := max 1 (min 5 depth)

/-- The SQL row filter: `(path = base OR path LIKE base||'/%') AND
depth <= max_depth` (no LIKE wildcards occur in `base`). -/
def sqlFilter (base : String) (maxDepth : Nat) (r : Row) : Bool :=
  (if base.isEmpty then true
   else r.path == base || (base.toList ++ ['/']).isPrefixOf r.path.toList) &&
  r.depth ≤ maxDepth

/-- The Python-side row filter (hidden names, optional glob on the
basename; an empty pattern string is falsy and filters nothing). -/
def pyFilter (include_hidden : Bool) (pattern : Option String)
    (fnmatch : String → String → Bool) (r : Row) : Bool :=
  (include_hidden || !(r.name.toList.head? == some '.')) &&
  (match pattern with
   | none => true
   | some pat => if pat.isEmpty then true else fnmatch r.name pat)

/-- Method `TreeIndexer.get_structure`. -/
def get_structure (table : List Row) (path : String) (depth : Nat)
    (include_hidden : Bool) (pattern : Option String)
    (fnmatch : String → String → Bool) : StructResult :=
  let d := clampDepth depth
  let base := if path.isEmpty then "" else stripSlashes path
  let bd := if base.isEmpty then 0 else numParts base
  let maxDepth := bd + d
  let sorted := isortBy rowLe (table.filter (sqlFilter base maxDepth))
  let entries := (sorted.filter (pyFilter include_hidden pattern fnmatch)).map mkEntry
  ⟨entries,
   (table.filter (fun r => r.type == "file")).length,
   (table.filter (fun r => r.type == "dir")).length,
   entries.length⟩

/-- Value `base_depth` as computed by `get_structure`. -/
def baseDepth (path : String) : Nat :=
  let base := if path.isEmpty then "" else stripSlashes path
  if base.isEmpty then 0 else numParts base

/-- The comparator `ORDER BY type DESC, path` transported to response
entries. -/
def entryLe (a b : Entry) : Bool :=
  lexLt b.type.toList a.type.toList || (a.type.toList == b.type.toList && lexLe a.path.toList b.path.toList)

end TreeIndexer

namespace FileOpSpec

/-! Declarative restatement of the file-operation taxonomy, used to
compare `Svc.classify_file_operation` (regex-based) with the amended
claim C7: the blocked list and the configuration-like list written as
plain suffix / substring conditions on the lower-cased path. -/

/-- The blocked-file conditions (lower-cased path). -/
def blockedFile (p : List Char) : Bool :=
  endsWithB ".env".toList p ||
  (containsSub ".env.".toList p ||
  (endsWithB ".key".toList p ||
  (endsWithB ".pem".toList p ||
  (endsWithB ".p12".toList p ||
  (endsWithB ".pfx".toList p ||
  (containsSub "id_rsa".toList p ||
  (containsSub "id_ed25519".toList p ||
  (containsSub "id_ecdsa".toList p ||
  (containsSub "id_dsa".toList p ||
  (endsWithB ".git/config".toList p ||
  (containsSub ".git/credentials".toList p ||
  (endsWithB "secrets.yaml".toList p ||
  (endsWithB "secrets.enc.yaml".toList p ||
  (containsSub ".aws/credentials".toList p ||
  containsSub ".ssh/".toList p))))))))))))))

/-- The configuration-like conditions (lower-cased path); this is the
code's list, which extends the claim's list by `.gitignore`,
`settings.py` and `.dockerignore`. -/
def configLike (p : List Char) : Bool :=
  containsSub ".git/".toList p ||
  (endsWithB ".gitignore".toList p ||
  (endsWithB "config.yaml".toList p ||
  (endsWithB "config.json".toList p ||
  (endsWithB "settings.py".toList p ||
  (endsWithB ".dockerignore".toList p ||
  (endsWithB "dockerfile".toList p ||
  containsSub "docker-compose".toList p))))))

/-- The amended-claim taxonomy as a function. -/
def classify (operation : String) (path : String) : SensitivityLevel :=
  let p := pyLower path.toList
  if blockedFile p then .blocked
  else if operation = "read_file" ∨ operation = "read_structure" then
    if configLike p then .prompt else .auto
  else if operation = "edit_file" then
    if configLike p then .high else .prompt
  else .prompt

/-- Modelled from the claim's wording of C7: the configuration-like
list as the claim states it (`.git/*`, `Dockerfile`,
`config.yaml`/`config.json`, `docker-compose*`), on the lower-cased
path — used only to exhibit that the code's list is strictly larger. -/
def claimConfigLike (p : List Char) : Bool :=
  containsSub ".git/".toList p ||
  (endsWithB "dockerfile".toList p ||
  (endsWithB "config.yaml".toList p ||
  (endsWithB "config.json".toList p ||
  containsSub "docker-compose".toList p)))

end FileOpSpec

/-- Well-formedness of the modelled approval store: each record is
filed under its own id (the Python service keys records by
`hitl:approval:{request.id}`). -/
def storeWF (kv : Hitl.Store) : Bool := kv.all (fun p => p.2.id == p.1)

/-! ## Matcher lemmas for literal patterns

`re.search` of an unanchored literal is substring containment, and of a
`$`-anchored literal is suffix equality.  These are the bridges between
the transcribed patterns and the declarative spec-side predicates. -/

theorem litRe_nil : litRe [] = Re.eps := rfl

theorem litRe_cons (c : Char) (w : List Char) :
    litRe (c :: w) = Re.cat (Re.ch (CC.lit c)) (litRe w) := rfl

theorem nullable_litRe (w : List Char) : nullable (litRe w) = w.isEmpty := by
  cases w <;> simp [litRe_nil, litRe_cons, nullable]

theorem scat_emp (b : Re) : scat .emp b = .emp := rfl

theorem scat_eps (b : Re) : scat .eps b = b := rfl

theorem deriv_litRe_cons (c : Char) (w : List Char) (d : Char) :
    deriv (litRe (c :: w)) d = if c = d then litRe w else .emp := by
  rw [litRe_cons]
  by_cases h : c = d
  · rw [if_pos h]
    show scat (deriv (Re.ch (CC.lit c)) d) (litRe w) = litRe w
    rw [show deriv (Re.ch (CC.lit c)) d = .eps by simp [deriv, ccMatch, h], scat_eps]
  · rw [if_neg h]
    show scat (deriv (Re.ch (CC.lit c)) d) (litRe w) = .emp
    rw [show deriv (Re.ch (CC.lit c)) d = .emp by simp [deriv, ccMatch, h], scat_emp]

theorem matchPrefixA_emp (endA : Option Anch) (prev : Option Char) (s : List Char) :
    matchPrefixA .emp endA prev s = false := by
  induction s generalizing prev with
  | nil => simp [matchPrefixA, nullable]
  | cons c s ih => simp [matchPrefixA, nullable, deriv, ih]

theorem isPrefixOf_nil_right (w : List Char) : w.isPrefixOf [] = w.isEmpty := by
  cases w <;> simp

theorem matchPrefixA_lit_none (w : List Char) (prev : Option Char) (s : List Char) :
    matchPrefixA (litRe w) none prev s = w.isPrefixOf s := by
  induction s generalizing w prev with
  | nil => simp [matchPrefixA, nullable_litRe, anchOk, isPrefixOf_nil_right]
  | cons d s ih =>
    cases w with
    | nil => simp [matchPrefixA, litRe_nil, nullable, anchOk, List.isPrefixOf]
    | cons c w =>
      by_cases h : c = d <;>
        simp [matchPrefixA, nullable_litRe, deriv_litRe_cons, h, ih, matchPrefixA_emp,
          List.isPrefixOf]

theorem matchPrefixA_lit_eol (w : List Char) (prev : Option Char) (s : List Char) :
    matchPrefixA (litRe w) (some .eol) prev s = (w == s) := by
  induction s generalizing w prev with
  | nil =>
    cases w <;> simp [matchPrefixA, nullable_litRe, anchOk]
  | cons d s ih =>
    cases w with
    | nil => simp [matchPrefixA, litRe_nil, nullable, anchOk, deriv, matchPrefixA_emp]
    | cons c w =>
      by_cases h : c = d <;>
        simp [matchPrefixA, nullable_litRe, anchOk, deriv_litRe_cons, h, ih, matchPrefixA_emp,
          List.cons_beq_cons]

theorem searchFrom_lit_none (w : List Char) (prev : Option Char) (s : List Char) :
    searchFrom ⟨none, litRe w, none⟩ prev s = containsSub w s := by
  induction s generalizing prev with
  | nil => simp [searchFrom, searchAt, anchOk, matchPrefixA_lit_none, containsSub]
  | cons c s ih =>
    simp [searchFrom, searchAt, anchOk, matchPrefixA_lit_none, containsSub, ih]

theorem searchFrom_lit_eol (w : List Char) (prev : Option Char) (s : List Char) :
    searchFrom ⟨none, litRe w, some .eol⟩ prev s = endsWithB w s := by
  induction s generalizing prev with
  | nil => simp [searchFrom, searchAt, anchOk, matchPrefixA_lit_eol, endsWithB]
  | cons c s ih =>
    simp [searchFrom, searchAt, anchOk, matchPrefixA_lit_eol, endsWithB, ih]

theorem research_litP (t : String) (s : List Char) :
    research (litP t) s = containsSub t.toList s :=
  searchFrom_lit_none t.toList none s

theorem research_litSufP (t : String) (s : List Char) :
    research (litSufP t) s = endsWithB t.toList s :=
  searchFrom_lit_eol t.toList none s

/-! ## Generic helper lemmas -/

theorem endsWithB_append_self (w x : List Char) : endsWithB w (x ++ w) = true := by
  induction x with
  | nil => cases w <;> simp [endsWithB]
  | cons c x ih => simp [endsWithB, ih]

theorem pySliceSet_of_le_start {α : Type} (xs ys : List α) (i j : Nat) (h : xs.length ≤ i) :
    FilesRouter.pySliceSet xs i j ys = xs ++ ys := by
  simp [FilesRouter.pySliceSet, Nat.min_eq_right h, Nat.max_eq_left (Nat.min_le_left _ _),
    List.take_of_length_le (le_refl xs.length), List.drop_of_length_le (le_refl xs.length)]

/-! ### Association-store lemmas for the approval service -/

theorem get_status_cons (p : String × Hitl.ApprovalRequest) (rest : Hitl.Store) (id : String) :
    Hitl.get_status (p :: rest) id =
      if p.1 == id then some p.2 else Hitl.get_status rest id := by
  by_cases hp : (p.1 == id) = true <;> simp [Hitl.get_status, List.find?, hp]

theorem setStatus_cons (p : String × Hitl.ApprovalRequest) (rest : Hitl.Store) (id : String)
    (st : Hitl.ApprovalStatus) :
    Hitl.setStatus (p :: rest) id st =
      (if p.1 == id then (p.1, { p.2 with status := st }) else p) :: Hitl.setStatus rest id st := rfl

theorem get_status_setStatus (store : Hitl.Store) (id : String) (r : Hitl.ApprovalRequest)
    (st : Hitl.ApprovalStatus) (h : Hitl.get_status store id = some r) :
    Hitl.get_status (Hitl.setStatus store id st) id = some { r with status := st } := by
  induction store with
  | nil => simp [Hitl.get_status, List.find?] at h
  | cons p rest ih =>
    rw [get_status_cons] at h
    by_cases hp : (p.1 == id) = true
    · rw [if_pos hp] at h
      have h2 : p.2 = r := by simpa using h
      rw [setStatus_cons, if_pos hp, get_status_cons, if_pos hp, h2]
    · rw [if_neg hp] at h
      rw [setStatus_cons, if_neg hp, get_status_cons, if_neg hp]
      exact ih h

theorem get_pending_mem (st : Interceptor.HitlState) (r : Hitl.ApprovalRequest)
    (hwf : storeWF st.kv = true) (hmem : r ∈ (Interceptor.get_pending_for_user st).1) :
    Hitl.get_status st.kv r.id = some r ∧ r.status = .pending := by
  simp only [Interceptor.get_pending_for_user] at hmem
  obtain ⟨id, _, hf⟩ := List.mem_filterMap.mp hmem
  rcases hq : Hitl.get_status st.kv id with _ | q
  · rw [hq] at hf
    simp at hf
  · rw [hq] at hf
    by_cases hps : q.status = Hitl.ApprovalStatus.pending
    · have hqr : q = r := by simpa [hps] using hf
      subst hqr
      refine ⟨?_, hps⟩
      obtain ⟨p, hfind⟩ : ∃ p, st.kv.find? (fun p => p.1 == id) = some p := by
        rcases hfind : st.kv.find? (fun p => p.1 == id) with _ | p
        · rw [Hitl.get_status, hfind] at hq
          simp at hq
        · exact ⟨p, hfind⟩
      have hp2 : p.2 = q := by
        rw [Hitl.get_status, hfind] at hq
        simpa using hq
      have hkey : p.1 = id := by simpa using List.find?_some hfind
      have hpmem : p ∈ st.kv := List.mem_of_find?_eq_some hfind
      have hid : q.id = id := by
        have hwp := (List.all_eq_true.mp hwf) p hpmem
        simp only [beq_iff_eq] at hwp
        rw [← hp2, hwp, hkey]
      rw [hid, hq]
    · simp [hps] at hf

/-! ### Lexicographic order on character lists -/

theorem lexLt_trans : ∀ {x y z : List Char},
    TreeIndexer.lexLt x y = true → TreeIndexer.lexLt y z = true → TreeIndexer.lexLt x z = true := by
  intro x
  induction x with
  | nil =>
    intro y z hxy hyz
    cases y with
    | nil => simp [TreeIndexer.lexLt] at hxy
    | cons b bs =>
      cases z with
      | nil => simp [TreeIndexer.lexLt] at hyz
      | cons c cs => simp [TreeIndexer.lexLt]
  | cons a as ih =>
    intro y z hxy hyz
    cases y with
    | nil => simp [TreeIndexer.lexLt] at hxy
    | cons b bs =>
      cases z with
      | nil => simp [TreeIndexer.lexLt] at hyz
      | cons c cs =>
        simp only [TreeIndexer.lexLt, Bool.or_eq_true, Bool.and_eq_true, decide_eq_true_eq] at hxy hyz ⊢
        rcases hxy with hab | ⟨hab, hr1⟩ <;> rcases hyz with hbc | ⟨hbc, hr2⟩
        · exact Or.inl (lt_trans hab hbc)
        · exact Or.inl (hbc ▸ hab)
        · exact Or.inl (hab ▸ hbc)
        · exact Or.inr ⟨hab.trans hbc, ih hr1 hr2⟩

theorem lexLe_trans : ∀ {x y z : List Char},
    TreeIndexer.lexLe x y = true → TreeIndexer.lexLe y z = true → TreeIndexer.lexLe x z = true := by
  intro x
  induction x with
  | nil => intro y z _ _; simp [TreeIndexer.lexLe]
  | cons a as ih =>
    intro y z hxy hyz
    cases y with
    | nil => simp [TreeIndexer.lexLe] at hxy
    | cons b bs =>
      cases z with
      | nil => simp [TreeIndexer.lexLe] at hyz
      | cons c cs =>
        simp only [TreeIndexer.lexLe, Bool.or_eq_true, Bool.and_eq_true, decide_eq_true_eq] at hxy hyz ⊢
        rcases hxy with hab | ⟨hab, hr1⟩ <;> rcases hyz with hbc | ⟨hbc, hr2⟩
        · exact Or.inl (lt_trans hab hbc)
        · exact Or.inl (hbc ▸ hab)
        · exact Or.inl (hab ▸ hbc)
        · exact Or.inr ⟨hab.trans hbc, ih hr1 hr2⟩

theorem lexLe_total : ∀ (x y : List Char),
    TreeIndexer.lexLe x y = true ∨ TreeIndexer.lexLe y x = true := by
  intro x
  induction x with
  | nil => intro y; exact Or.inl (by simp [TreeIndexer.lexLe])
  | cons a as ih =>
    intro y
    cases y with
    | nil => exact Or.inr (by simp [TreeIndexer.lexLe])
    | cons b bs =>
      rcases lt_trichotomy a b with h | h | h
      · exact Or.inl (by simp [TreeIndexer.lexLe, h])
      · subst h
        rcases ih bs with h' | h'
        · exact Or.inl (by simp [TreeIndexer.lexLe, h'])
        · exact Or.inr (by simp [TreeIndexer.lexLe, h'])
      · exact Or.inr (by simp [TreeIndexer.lexLe, h])

theorem lexLt_trichotomy : ∀ (x y : List Char),
    TreeIndexer.lexLt x y = true ∨ x = y ∨ TreeIndexer.lexLt y x = true := by
  intro x
  induction x with
  | nil =>
    intro y
    cases y with
    | nil => exact Or.inr (Or.inl rfl)
    | cons b bs => exact Or.inl (by simp [TreeIndexer.lexLt])
  | cons a as ih =>
    intro y
    cases y with
    | nil => exact Or.inr (Or.inr (by simp [TreeIndexer.lexLt]))
    | cons b bs =>
      rcases lt_trichotomy a b with h | h | h
      · exact Or.inl (by simp [TreeIndexer.lexLt, h])
      · subst h
        rcases ih bs with h' | h' | h'
        · exact Or.inl (by simp [TreeIndexer.lexLt, h'])
        · exact Or.inr (Or.inl (by rw [h']))
        · exact Or.inr (Or.inr (by simp [TreeIndexer.lexLt, h']))
      · exact Or.inr (Or.inr (by simp [TreeIndexer.lexLt, h]))

theorem rowLe_trans : ∀ {a b c : TreeIndexer.Row},
    TreeIndexer.rowLe a b = true → TreeIndexer.rowLe b c = true → TreeIndexer.rowLe a c = true := by
  intro a b c hab hbc
  simp only [TreeIndexer.rowLe, Bool.or_eq_true, Bool.and_eq_true, beq_iff_eq] at hab hbc ⊢
  rcases hab with h1 | ⟨h1, h1'⟩ <;> rcases hbc with h2 | ⟨h2, h2'⟩
  · exact Or.inl (lexLt_trans h2 h1)
  · exact Or.inl (h2 ▸ h1)
  · exact Or.inl (by rw [h1]; exact h2)
  · exact Or.inr ⟨h1.trans h2, lexLe_trans h1' h2'⟩

theorem rowLe_total : ∀ (a b : TreeIndexer.Row),
    TreeIndexer.rowLe a b = true ∨ TreeIndexer.rowLe b a = true := by
  intro a b
  simp only [TreeIndexer.rowLe, Bool.or_eq_true, Bool.and_eq_true, beq_iff_eq]
  rcases lexLt_trichotomy a.type.toList b.type.toList with h | h | h
  · exact Or.inr (Or.inl h)
  · rcases lexLe_total a.path.toList b.path.toList with h' | h'
    · exact Or.inl (Or.inr ⟨h, h'⟩)
    · exact Or.inr (Or.inr ⟨h.symm, h'⟩)
  · exact Or.inl (Or.inl h)

/-! ### Stable insertion sort lemmas -/

theorem insertStable_perm {α : Type} (le : α → α → Bool) (x : α) (l : List α) :
    (insertStable le x l).Perm (x :: l) := by
  induction l with
  | nil => simp [insertStable]
  | cons y ys ih =>
    by_cases h : (le x y && !le y x) = true
    · simp [insertStable, h]
    · have : insertStable le x (y :: ys) = y :: insertStable le x ys := by
        simp [insertStable, h]
      rw [this]
      exact (List.Perm.cons y ih).trans (List.Perm.swap x y ys)

theorem isortBy_perm_aux {α : Type} (le : α → α → Bool) :
    ∀ (l acc : List α), (l.foldl (fun acc x => insertStable le x acc) acc).Perm (l ++ acc) := by
  intro l
  induction l with
  | nil => intro acc; simp
  | cons x xs ih =>
    intro acc
    simp only [List.foldl_cons, List.cons_append]
    have h1 := ih (insertStable le x acc)
    have h2 : (xs ++ insertStable le x acc).Perm (xs ++ x :: acc) :=
      List.Perm.append_left xs (insertStable_perm le x acc)
    have h3 : (xs ++ x :: acc).Perm (x :: (xs ++ acc)) := List.perm_middle
    exact h1.trans (h2.trans h3)

theorem isortBy_perm {α : Type} (le : α → α → Bool) (l : List α) :
    (isortBy le l).Perm l := by
  have := isortBy_perm_aux le l []
  simpa [isortBy] using this

theorem mem_insertStable {α : Type} (le : α → α → Bool) (x z : α) (l : List α) :
    z ∈ insertStable le x l ↔ z = x ∨ z ∈ l := by
  rw [(insertStable_perm le x l).mem_iff]
  simp

theorem insertStable_pairwise {α : Type} (le : α → α → Bool)
    (htr : ∀ a b c, le a b = true → le b c = true → le a c = true)
    (hto : ∀ a b, le a b = true ∨ le b a = true)
    (x : α) (l : List α) (h : l.Pairwise (fun a b => le a b = true)) :
    (insertStable le x l).Pairwise (fun a b => le a b = true) := by
  induction l with
  | nil => simp [insertStable]
  | cons y ys ih =>
    rcases List.pairwise_cons.mp h with ⟨hy, hys⟩
    by_cases hc : (le x y && !le y x) = true
    · have hxy : le x y = true := by
        cases hxy0 : le x y
        · rw [hxy0] at hc
          simp at hc
        · rfl
      have heq : insertStable le x (y :: ys) = x :: y :: ys := by
        simp [insertStable, hc]
      rw [heq]
      refine List.pairwise_cons.mpr ⟨?_, h⟩
      intro z hz
      rcases List.mem_cons.mp hz with rfl | hz'
      · exact hxy
      · exact htr x y z hxy (hy z hz')
    · have hyx : le y x = true := by
        cases hyx0 : le y x
        · rcases hto x y with h'' | h''
          · exact absurd (by rw [h'', hyx0]; rfl) hc
          · rw [hyx0] at h''
            exact h''
        · rfl
      have heq : insertStable le x (y :: ys) = y :: insertStable le x ys := by
        simp [insertStable, hc]
      rw [heq]
      refine List.pairwise_cons.mpr ⟨?_, ih hys⟩
      intro z hz
      rcases (mem_insertStable le x z ys).mp hz with rfl | hz'
      · exact hyx
      · exact hy z hz'

theorem isortBy_pairwise_aux {α : Type} (le : α → α → Bool)
    (htr : ∀ a b c, le a b = true → le b c = true → le a c = true)
    (hto : ∀ a b, le a b = true ∨ le b a = true) :
    ∀ (l acc : List α), acc.Pairwise (fun a b => le a b = true) →
      ((l.foldl (fun acc x => insertStable le x acc) acc).Pairwise (fun a b => le a b = true)) := by
  intro l
  induction l with
  | nil => intro acc h; simpa using h
  | cons x xs ih =>
    intro acc h
    exact ih (insertStable le x acc) (insertStable_pairwise le htr hto x acc h)

theorem isortBy_pairwise {α : Type} (le : α → α → Bool)
    (htr : ∀ a b c, le a b = true → le b c = true → le a c = true)
    (hto : ∀ a b, le a b = true ∨ le b a = true) (l : List α) :
    (isortBy le l).Pairwise (fun a b => le a b = true) :=
  isortBy_pairwise_aux le htr hto l [] (by simp)

/-- Two sorted permutations with pairwise-distinct keys coincide
(descending on a `Nat` key). -/
theorem sorted_nodupkeys_unique {α : Type} (key : α → Nat) :
    ∀ (l₁ l₂ : List α), l₁.Perm l₂ →
      l₁.Pairwise (fun a b => key b ≤ key a) →
      l₂.Pairwise (fun a b => key b ≤ key a) →
      (l₁.map key).Nodup → l₁ = l₂ := by
  intro l₁
  induction l₁ with
  | nil => intro l₂ hp _ _ _; exact hp.symm.eq_nil.symm
  | cons a t₁ ih =>
    intro l₂ hp hs₁ hs₂ hnd
    cases l₂ with
    | nil => exact absurd hp.eq_nil (by simp)
    | cons b t₂ =>
      rcases List.pairwise_cons.mp hs₁ with ⟨ha, ht₁⟩
      rcases List.pairwise_cons.mp hs₂ with ⟨hb, ht₂⟩
      rw [List.map_cons] at hnd
      rcases List.nodup_cons.mp hnd with ⟨hka, hknd⟩
      have hab : a = b := by
        have hbmem : b ∈ a :: t₁ := hp.symm.subset (by simp)
        rcases List.mem_cons.mp hbmem with rfl | hbt₁
        · rfl
        · have hamem : a ∈ b :: t₂ := hp.subset (by simp)
          rcases List.mem_cons.mp hamem with rfl | hat₂
          · rfl
          · have h1 : key b ≤ key a := ha b hbt₁
            have h2 : key a ≤ key b := hb a hat₂
            have hk : key b = key a := le_antisymm h1 h2
            exact absurd (hk ▸ List.mem_map_of_mem key hbt₁) hka
      subst hab
      have : t₁ = t₂ := ih t₂ (hp.cons_inv) ht₁ ht₂ hknd
      rw [this]

theorem isPrefixOf_self {α : Type} [BEq α] [LawfulBEq α] (l : List α) :
    l.isPrefixOf l = true := by
  induction l with
  | nil => rfl
  | cons a l ih => simp [List.isPrefixOf, ih]

/-! ## Claim theorems -/

/-- C1: every path accepted by `PathValidator.validate` is returned in
fully resolved form and is the workspace root or a descendant of it
(the workspace root is a component-prefix of the result), and every
path whose resolution (as computed by `validate`, with the special
inputs `""`, `"."`, `"./"`, `"/"` standing for the root itself) falls
outside the workspace is rejected with a `PathValidationError`. -/
theorem C1_workspace_confinement (W : List String) (blocked : List String)
    (fnm : String → String → Bool)
    (resolveFn : PathValidator.Target → Option (List String)) (path : String) :
    (∀ r, PathValidator.validate W blocked fnm resolveFn path = .ok r →
      W.isPrefixOf r = true) ∧
    (∀ q, PathValidator.codeResolution W resolveFn path = some q →
      W.isPrefixOf q = false →
      PathValidator.validate W blocked fnm resolveFn path =
        .error (PathValidator.PathError.escapesWorkspace q)) := by
  constructor
  · intro r hr
    unfold PathValidator.validate at hr
    by_cases hs : PathValidator.specialInput path = true
    · rw [if_pos hs] at hr
      have : W = r := by simpa using hr
      rw [← this]
      exact isPrefixOf_self W
    · rw [if_neg hs] at hr
      rcases hres : resolveFn (PathValidator.targetOf W path) with _ | q
      · simp [hres] at hr
      · by_cases hpre : W.isPrefixOf q = true
        · rcases hf : blocked.find? (fun pat =>
              fnm (PathValidator.relStr (q.drop W.length)) pat ||
              fnm (PathValidator.nameOf q) pat) with _ | pat
          · simp [hres, hpre, hf] at hr
            rw [← hr]
            exact hpre
          · simp [hres, hpre, hf] at hr
        · simp [hres, hpre] at hr
  · intro q hq hnot
    unfold PathValidator.codeResolution at hq
    unfold PathValidator.validate
    by_cases hs : PathValidator.specialInput path = true
    · rw [if_pos hs] at hq
      have : W = q := by simpa using hq
      rw [← this] at hnot
      rw [isPrefixOf_self W] at hnot
      cases hnot
    · rw [if_neg hs] at hq
      rw [if_neg hs]
      simp [hq, hnot]

/-- Witness for C1 at concrete inputs: a relative path is accepted and
stays under the workspace; an absolute path resolving to `/etc/passwd`
is rejected as escaping. -/
theorem C1_workspace_confinement_witness :
    (["workspace"].isPrefixOf ["workspace", "sub"]) = true ∧
    PathValidator.validate ["workspace"] ["*.env"] (fun _ _ => false)
        (fun t => match t with
          | .abs p => some [p]
          | .rel root s => some (root ++ [s])) "/etc/passwd" =
      .error (PathValidator.PathError.escapesWorkspace ["/etc/passwd"]) :=
  ⟨(C1_workspace_confinement ["workspace"] ["*.env"] (fun _ _ => false)
      (fun t => match t with
        | .abs p => some [p]
        | .rel root s => some (root ++ [s])) "sub").1 ["workspace", "sub"] rfl,
   (C1_workspace_confinement ["workspace"] ["*.env"] (fun _ _ => false)
      (fun t => match t with
        | .abs p => some [p]
        | .rel root s => some (root ++ [s])) "/etc/passwd").2 ["/etc/passwd"]
      rfl (by decide)⟩

/-- C3 (amended): each returned stream of `execute` is at most
`max_output_lines * 100` characters **plus the sentinel tail line**
(the cap applies to the content before the sentinel); `truncated` is
set exactly when a stream exceeded the cap, in which case that stream
ends with the sentinel, and a stream within the cap is returned
unchanged. -/
theorem C3_output_truncation (maxLines : Nat) (stdout stderr : List Char) :
    (ExecRouter.executeTruncation maxLines stdout stderr).1.length ≤
      maxLines * 100 + ExecRouter.sentinel.length ∧
    (ExecRouter.executeTruncation maxLines stdout stderr).2.1.length ≤
      maxLines * 100 + ExecRouter.sentinel.length ∧
    (ExecRouter.executeTruncation maxLines stdout stderr).2.2 =
      (decide (maxLines * 100 < stdout.length) || decide (maxLines * 100 < stderr.length)) ∧
    (maxLines * 100 < stdout.length →
      endsWithB ExecRouter.sentinel (ExecRouter.executeTruncation maxLines stdout stderr).1 = true) ∧
    (maxLines * 100 < stderr.length →
      endsWithB ExecRouter.sentinel (ExecRouter.executeTruncation maxLines stdout stderr).2.1 = true) ∧
    (stdout.length ≤ maxLines * 100 →
      (ExecRouter.executeTruncation maxLines stdout stderr).1 = stdout) ∧
    (stderr.length ≤ maxLines * 100 →
      (ExecRouter.executeTruncation maxLines stdout stderr).2.1 = stderr) := by
  refine ⟨?_, ?_, ?_, ?_, ?_, ?_, ?_⟩ <;>
    simp only [ExecRouter.executeTruncation, ExecRouter.truncate_stream] <;>
    by_cases h1 : maxLines * 100 < stdout.length <;>
    by_cases h2 : maxLines * 100 < stderr.length <;>
    simp [h1, h2, List.length_take, endsWithB_append_self, Nat.lt_iff_add_one_le] <;>
    omega

set_option maxRecDepth 8000 in
/-- Witness for C3 at a concrete overlong stream: the returned stdout
carries the sentinel tail. -/
theorem C3_output_truncation_witness :
    endsWithB ExecRouter.sentinel
      ((ExecRouter.executeTruncation 1 (List.replicate 150 'a') []).1) = true :=
  (C3_output_truncation 1 (List.replicate 150 'a') []).2.2.2.1 (by decide)

set_option maxRecDepth 8000 in
/-- Counterexample to C3 as stated: with `max_output_lines = 1` and a
150-character stdout the returned stdout has 123 characters, exceeding
the claimed cap of `max_output_lines * 100 = 100` (the sentinel is
appended after cutting at the cap). -/
theorem C3_cap_exceeded_counterexample :
    (ExecRouter.executeTruncation 1 (List.replicate 150 'a') []).1.length = 123 ∧
    1 * 100 < (ExecRouter.executeTruncation 1 (List.replicate 150 'a') []).1.length ∧
    (ExecRouter.executeTruncation 1 (List.replicate 150 'a') []).2.2 = true :=
  ⟨by decide, by decide, by decide⟩

/-- C2 (amended): no single `classify_command` blocks the whole BLOCKED
taxonomy; the tool-level `classify_command` does return BLOCKED for
every command whose lower-cased, stripped text contains a
system-directory reference (`/etc/`, `/var/`, `/usr/`) or a command
substitution token (backtick, `$(`), and a command it classifies as
BLOCKED is answered directly and never reaches the gateway executor. -/
theorem C2_blocked_taxonomy (command : String)
    (h : containsSub "/etc/".toList (pyStrip (pyLower command.toList)) = true ∨
         containsSub "/var/".toList (pyStrip (pyLower command.toList)) = true ∨
         containsSub "/usr/".toList (pyStrip (pyLower command.toList)) = true ∨
         containsSub "`".toList (pyStrip (pyLower command.toList)) = true ∨
         containsSub "$(".toList (pyStrip (pyLower command.toList)) = true) :
    Tool.classify_command command = .blocked ∧
    (∀ approved, Tool.executeReachesGateway command approved = false) := by
  have hany : Tool.BLOCKED_PATTERNS.any
      (fun p => research p (pyStrip (pyLower command.toList))) = true := by
    rcases h with h | h | h | h | h
    · exact List.any_eq_true.mpr
        ⟨litP "/etc/", by decide, by rw [research_litP]; exact h⟩
    · exact List.any_eq_true.mpr
        ⟨litP "/var/", by decide, by rw [research_litP]; exact h⟩
    · exact List.any_eq_true.mpr
        ⟨litP "/usr/", by decide, by rw [research_litP]; exact h⟩
    · exact List.any_eq_true.mpr
        ⟨litP "`", by decide, by rw [research_litP]; exact h⟩
    · exact List.any_eq_true.mpr
        ⟨litP "$(", by decide, by rw [research_litP]; exact h⟩
  have hcls : Tool.classify_command command = .blocked := by
    unfold Tool.classify_command
    rw [if_pos hany]
  refine ⟨hcls, fun approved => ?_⟩
  unfold Tool.executeReachesGateway
  rw [hcls]

/-- Witness for C2 at a concrete command containing `/etc/`. -/
theorem C2_blocked_taxonomy_witness :
    Tool.classify_command "cat /etc/passwd" = SensitivityLevel.blocked :=
  (C2_blocked_taxonomy "cat /etc/passwd" (Or.inl (by decide))).1

/-- Counterexample to C2 as stated: `cat /etc/passwd` contains a
system-directory reference of the BLOCKED taxonomy but the service
classifier (`services/sensitivity_classifier.py`) returns AUTO; the
fork-bomb token is classified PROMPT (not BLOCKED) by the tool
classifier, so with user approval it reaches the gateway, whose
`validate_command` (with `shlex.split(":(){ :|:& };:") =
[":(){", ":|:&", "};:"]`) also accepts it — such a command does reach
the executor. -/
theorem C2_services_classifier_counterexample :
    containsSub "/etc/".toList "cat /etc/passwd".toList = true ∧
    Svc.classify_command "cat /etc/passwd" = SensitivityLevel.auto ∧
    SensitivityLevel.auto ≠ SensitivityLevel.blocked ∧
    Tool.classify_command ":(\x7b :|:& \x7d;:" = SensitivityLevel.prompt ∧
    Tool.executeReachesGateway ":(\x7b :|:& \x7d;:" true = true ∧
    ExecRouter.validate_command (fun _ => some [":(\x7b", ":|:&", "\x7d;:"])
      ":(\x7b :|:& \x7d;:" = .ok () :=
  ⟨by decide, by decide, by decide, by decide, by decide, rfl⟩

/-- C7 (amended): `classify_file_operation` of the service classifier
agrees with the declarative taxonomy: blocked-file patterns force
BLOCKED regardless of the operation; reads of configuration-like files
are PROMPT and edits of them HIGH, where the configuration-like set is
`.git/*`, `.gitignore`, `config.yaml`/`config.json`, `settings.py`,
`.dockerignore`, `Dockerfile`, `docker-compose*` (three entries more
than the claim lists); all other reads are AUTO and all other
operations PROMPT. -/
theorem C7_file_op_taxonomy (operation path : String) :
    Svc.classify_file_operation operation path = FileOpSpec.classify operation path := by
  unfold Svc.classify_file_operation FileOpSpec.classify
  simp only [Svc.BLOCKED_FILE_PATTERNS, Svc.HIGH_SENSITIVITY_FILE_PATTERNS,
    FileOpSpec.blockedFile, FileOpSpec.configLike,
    List.any_cons, List.any_nil, research_litP, research_litSufP, Bool.or_false]

/-- Counterexample to C7 as stated: `settings.py` matches neither the
claim's configuration-like list nor any blocked pattern, so the claim
predicts AUTO for a read — but the code classifies the read PROMPT
(its configuration-like list also contains `settings.py`). -/
theorem C7_settings_read_counterexample :
    Svc.classify_file_operation "read_file" "settings.py" = SensitivityLevel.prompt ∧
    SensitivityLevel.prompt ≠ SensitivityLevel.auto ∧
    FileOpSpec.claimConfigLike (pyLower "settings.py".toList) = false ∧
    FileOpSpec.blockedFile (pyLower "settings.py".toList) = false :=
  ⟨by decide, by decide, by decide, by decide⟩

/-- C4 (amended): the record stored by `queue_approval` is pending,
carries `created_at = now`, and satisfies
`expires_at + (created_at mod 1 s) = created_at + TTL`: the difference
`expires_at - created_at` is the TTL minus the sub-second part of
`created_at`, because `expires_at` is computed from
`now.replace(microsecond=0)`. -/
theorem C4_expiry_offset (defaultTtl : Nat) (ttlSeconds : Option Nat) (nowMicros : Nat)
    (id user op sens : String) :
    (Hitl.queue_approval defaultTtl ttlSeconds nowMicros id user op sens).status = .pending ∧
    (Hitl.queue_approval defaultTtl ttlSeconds nowMicros id user op sens).created_at_micros =
      nowMicros ∧
    (Hitl.queue_approval defaultTtl ttlSeconds nowMicros id user op sens).expires_at_micros +
        nowMicros % 1000000 =
      (Hitl.queue_approval defaultTtl ttlSeconds nowMicros id user op sens).created_at_micros +
        Hitl.effectiveTtl defaultTtl ttlSeconds * 1000000 := by
  refine ⟨rfl, rfl, ?_⟩
  simp only [Hitl.queue_approval]
  omega

/-- Counterexample to C4 as stated: queued at 0.5 s past an epoch
second with the default TTL of 120 s, the stored record satisfies
`expires_at - created_at = 119.5 s ≠ 120 s`. -/
theorem C4_expiry_counterexample :
    (Hitl.queue_approval 120 none 500000 "a" "u" "op" "high").expires_at_micros -
        (Hitl.queue_approval 120 none 500000 "a" "u" "op" "high").created_at_micros ≠
      Hitl.effectiveTtl 120 none * 1000000 := by decide

theorem get_pending_kv (st : Interceptor.HitlState) :
    (Interceptor.get_pending_for_user st).2.kv = st.kv := rfl

/-- C5 (amended): whenever a user has pending approvals, the
interceptor resolves the **first** pending request in the user-index
enumeration order (an unordered set in the store, so not necessarily
the oldest): a trimmed, lower-cased message matching the approve-regex
set approves it and returns the structured approved signal with its
user message, and a message matching the reject-regex set (and not the
approve set, which the code checks first) rejects it and returns the
structured rejected signal with its user message. -/
theorem C5_resolves_first_pending (st : Interceptor.HitlState) (msg : String)
    (r : Hitl.ApprovalRequest)
    (hwf : storeWF st.kv = true)
    (hhead : (Interceptor.get_pending_for_user st).1.head? = some r) :
    (Interceptor.matches_patterns msg Interceptor.APPROVE_PATTERNS = true →
      (Interceptor.check_for_approval_response st msg).1 =
        some (true, Interceptor.approveMsg r.operation) ∧
      Hitl.get_status (Interceptor.check_for_approval_response st msg).2.kv r.id =
        some { r with status := .approved }) ∧
    (Interceptor.matches_patterns msg Interceptor.APPROVE_PATTERNS = false →
      Interceptor.matches_patterns msg Interceptor.REJECT_PATTERNS = true →
      (Interceptor.check_for_approval_response st msg).1 =
        some (false, Interceptor.rejectMsg r.operation) ∧
      Hitl.get_status (Interceptor.check_for_approval_response st msg).2.kv r.id =
        some { r with status := .rejected }) := by
  rcases hl : (Interceptor.get_pending_for_user st).1 with _ | ⟨a, rest⟩
  · rw [hl] at hhead
    simp at hhead
  · have har : a = r := by
      rw [hl] at hhead
      simpa using hhead
    subst har
    have hmem : a ∈ (Interceptor.get_pending_for_user st).1 := by
      rw [hl]
      exact List.mem_cons_self a rest
    obtain ⟨hget, hpend⟩ := get_pending_mem st a hwf hmem
    constructor
    · intro happ
      have happrove : Hitl.approve st.kv a.id = (true, Hitl.setStatus st.kv a.id .approved) := by
        simp only [Hitl.approve, hget]
        rw [if_pos hpend]
      have hcheck : Interceptor.check_for_approval_response st msg =
          (some (true, Interceptor.approveMsg a.operation),
           ⟨Hitl.setStatus st.kv a.id .approved,
            (Interceptor.get_pending_for_user st).2.userIndex⟩) := by
        unfold Interceptor.check_for_approval_response
        simp only [hl, get_pending_kv, happ, happrove, Bool.not_true, Bool.false_and,
          Bool.false_eq_true, if_false, if_true]
      rw [hcheck]
      exact ⟨rfl, get_status_setStatus st.kv a.id a .approved hget⟩
    · intro happ hrej
      have hreject : Hitl.reject st.kv a.id = (true, Hitl.setStatus st.kv a.id .rejected) := by
        simp only [Hitl.reject, hget]
        rw [if_pos hpend]
      have hcheck : Interceptor.check_for_approval_response st msg =
          (some (false, Interceptor.rejectMsg a.operation),
           ⟨Hitl.setStatus st.kv a.id .rejected,
            (Interceptor.get_pending_for_user st).2.userIndex⟩) := by
        unfold Interceptor.check_for_approval_response
        simp only [hl, get_pending_kv, happ, hrej, hreject, Bool.not_true, Bool.not_false,
          Bool.true_and, Bool.false_eq_true, if_false, if_true]
      rw [hcheck]
      exact ⟨rfl, get_status_setStatus st.kv a.id a .rejected hget⟩

/-- Witness for C5 at a one-request store: the message `"yes"` yields
the approved signal and the message `"no"` yields the rejected
signal. -/
theorem C5_resolves_first_pending_witness :
    (Interceptor.check_for_approval_response
      ⟨[("id1", ⟨"id1", "u", "op1", "high", .pending, 100, 200⟩)], ["id1"]⟩ "yes").1 =
      some (true, Interceptor.approveMsg "op1") ∧
    (Interceptor.check_for_approval_response
      ⟨[("id1", ⟨"id1", "u", "op1", "high", .pending, 100, 200⟩)], ["id1"]⟩ "no").1 =
      some (false, Interceptor.rejectMsg "op1") :=
  ⟨((C5_resolves_first_pending
      ⟨[("id1", ⟨"id1", "u", "op1", "high", .pending, 100, 200⟩)], ["id1"]⟩ "yes"
      ⟨"id1", "u", "op1", "high", .pending, 100, 200⟩
      (by decide) (by decide)).1 (by decide)).1,
   ((C5_resolves_first_pending
      ⟨[("id1", ⟨"id1", "u", "op1", "high", .pending, 100, 200⟩)], ["id1"]⟩ "no"
      ⟨"id1", "u", "op1", "high", .pending, 100, 200⟩
      (by decide) (by decide)).2 (by decide) (by decide)).1⟩

/-- Counterexample to C5 as stated: with two pending requests whose
user-index enumerates the newer id first, the message `"yes"` approves
the newer request (`id2`, created later) and leaves the oldest
(`id1`) pending — the interceptor does not resolve the oldest pending
request. -/
theorem C5_oldest_counterexample :
    (Interceptor.check_for_approval_response
        ⟨[("id1", ⟨"id1", "u", "op1", "high", .pending, 100, 200⟩),
          ("id2", ⟨"id2", "u", "op2", "high", .pending, 300, 400⟩)],
         ["id2", "id1"]⟩ "yes").1 = some (true, Interceptor.approveMsg "op2") ∧
    Hitl.get_status
        (Interceptor.check_for_approval_response
          ⟨[("id1", ⟨"id1", "u", "op1", "high", .pending, 100, 200⟩),
            ("id2", ⟨"id2", "u", "op2", "high", .pending, 300, 400⟩)],
           ["id2", "id1"]⟩ "yes").2.kv "id2" =
      some ⟨"id2", "u", "op2", "high", .approved, 300, 400⟩ ∧
    Hitl.get_status
        (Interceptor.check_for_approval_response
          ⟨[("id1", ⟨"id1", "u", "op1", "high", .pending, 100, 200⟩),
            ("id2", ⟨"id2", "u", "op2", "high", .pending, 300, 400⟩)],
           ["id2", "id1"]⟩ "yes").2.kv "id1" =
      some ⟨"id1", "u", "op1", "high", .pending, 100, 200⟩ ∧
    (100 : Nat) < 300 :=
  ⟨by decide, by decide, by decide, by decide⟩

/-- C9: an approval request undergoes at most one terminal transition:
the first `approve` (resp. `reject`) of a present pending record
returns `true` and re-persists it as approved (resp. rejected); any
`approve`/`reject` of a non-pending or absent record returns `false`
and leaves the store unchanged — in particular both calls after the
first transition are no-ops. -/
theorem C9_terminal_transitions (store : Hitl.Store) (id : String) (r : Hitl.ApprovalRequest) :
    (Hitl.get_status store id = some r → r.status = .pending →
      Hitl.approve store id = (true, Hitl.setStatus store id .approved) ∧
      Hitl.get_status (Hitl.setStatus store id .approved) id =
        some { r with status := .approved } ∧
      Hitl.approve (Hitl.setStatus store id .approved) id =
        (false, Hitl.setStatus store id .approved) ∧
      Hitl.reject (Hitl.setStatus store id .approved) id =
        (false, Hitl.setStatus store id .approved)) ∧
    (Hitl.get_status store id = some r → r.status = .pending →
      Hitl.reject store id = (true, Hitl.setStatus store id .rejected) ∧
      Hitl.get_status (Hitl.setStatus store id .rejected) id =
        some { r with status := .rejected } ∧
      Hitl.approve (Hitl.setStatus store id .rejected) id =
        (false, Hitl.setStatus store id .rejected) ∧
      Hitl.reject (Hitl.setStatus store id .rejected) id =
        (false, Hitl.setStatus store id .rejected)) ∧
    (Hitl.get_status store id = some r → r.status ≠ .pending →
      Hitl.approve store id = (false, store) ∧ Hitl.reject store id = (false, store)) ∧
    (Hitl.get_status store id = none →
      Hitl.approve store id = (false, store) ∧ Hitl.reject store id = (false, store)) := by
  refine ⟨?_, ?_, ?_, ?_⟩
  · intro h hp
    have hset := get_status_setStatus store id r .approved h
    refine ⟨by simp [Hitl.approve, h, hp], hset, by simp [Hitl.approve, hset], by simp [Hitl.reject, hset]⟩
  · intro h hp
    have hset := get_status_setStatus store id r .rejected h
    refine ⟨by simp [Hitl.reject, h, hp], hset, by simp [Hitl.approve, hset], by simp [Hitl.reject, hset]⟩
  · intro h hnp
    exact ⟨by simp [Hitl.approve, h, hnp], by simp [Hitl.reject, h, hnp]⟩
  · intro h
    exact ⟨by simp [Hitl.approve, h], by simp [Hitl.reject, h]⟩

/-- Witness for C9 at a concrete one-element store: the first approve
of a pending record succeeds. -/
theorem C9_terminal_transitions_witness :
    Hitl.approve [("a", ⟨"a", "u", "op", "high", .pending, 0, 120000000⟩)] "a" =
      (true, Hitl.setStatus [("a", ⟨"a", "u", "op", "high", .pending, 0, 120000000⟩)] "a" .approved) :=
  ((C9_terminal_transitions [("a", ⟨"a", "u", "op", "high", .pending, 0, 120000000⟩)] "a"
    ⟨"a", "u", "op", "high", .pending, 0, 120000000⟩).1 (by decide) rfl).1

/-- C6 (amended): every `get_structure` result is ordered by
`ORDER BY type DESC, path`: since `'file' > 'dir'`, **files precede
directories** (not dir-first as claimed), with ascending path order
inside each kind; every returned entry comes from a table row whose
depth is at most `base_depth + clamp(1, 5, requested_depth)`. -/
theorem C6_structure_order_depth (table : List TreeIndexer.Row) (path : String) (depth : Nat)
    (include_hidden : Bool) (pattern : Option String) (fnm : String → String → Bool) :
    (TreeIndexer.get_structure table path depth include_hidden pattern fnm).tree.Pairwise
      (fun a b => TreeIndexer.entryLe a b = true) ∧
    (∀ e ∈ (TreeIndexer.get_structure table path depth include_hidden pattern fnm).tree,
      ∃ r ∈ table, e = TreeIndexer.mkEntry r ∧
        r.depth ≤ TreeIndexer.baseDepth path + TreeIndexer.clampDepth depth) := by
  constructor
  · simp only [TreeIndexer.get_structure]
    apply List.Pairwise.map TreeIndexer.mkEntry (fun a b h => h)
    apply List.Pairwise.filter
    exact isortBy_pairwise TreeIndexer.rowLe (fun a b c h1 h2 => rowLe_trans h1 h2) rowLe_total _
  · intro e he
    simp only [TreeIndexer.get_structure] at he
    obtain ⟨r, hr, hre⟩ := List.mem_map.mp he
    have hr2 := List.mem_of_mem_filter hr
    have hr3 := (isortBy_perm TreeIndexer.rowLe _).subset hr2
    obtain ⟨hrt, hcond⟩ := List.mem_filter.mp hr3
    refine ⟨r, hrt, hre.symm, ?_⟩
    simp only [TreeIndexer.sqlFilter, Bool.and_eq_true, decide_eq_true_eq] at hcond
    simpa only [TreeIndexer.baseDepth, TreeIndexer.clampDepth] using hcond.2

/-- Witness for C6: on a concrete two-row table the returned file entry
traces back to a table row within the depth bound. -/
theorem C6_structure_order_depth_witness :
    ∃ r ∈ [(⟨"a", "a", "file", some 5, 1⟩ : TreeIndexer.Row), ⟨"b", "b", "dir", none, 1⟩],
      (⟨"a", "a", "file", some 5⟩ : TreeIndexer.Entry) = TreeIndexer.mkEntry r ∧
        r.depth ≤ TreeIndexer.baseDepth "" + TreeIndexer.clampDepth 2 :=
  (C6_structure_order_depth
    [⟨"a", "a", "file", some 5, 1⟩, ⟨"b", "b", "dir", none, 1⟩] "" 2 false none
    (fun _ _ => false)).2 ⟨"a", "a", "file", some 5⟩ (by decide)

/-- Counterexample to C6 as stated: `ORDER BY type DESC` puts the
`file` row before the `dir` row, so a directory entry does **not**
precede a file entry; additionally, a depth-0 query is clamped to
depth 1 and still returns a depth-1 entry, above the claimed bound
`base_depth + requested_depth = 0`. -/
theorem C6_dir_first_counterexample :
    (TreeIndexer.get_structure
        [⟨"a", "a", "file", some 5, 1⟩, ⟨"b", "b", "dir", none, 1⟩] "" 2 false none
        (fun _ _ => false)).tree =
      [⟨"a", "a", "file", some 5⟩, ⟨"b", "b", "dir", none⟩] ∧
    (TreeIndexer.get_structure [⟨"a", "a", "file", some 5, 1⟩] "" 0 false none
        (fun _ _ => false)).tree = [⟨"a", "a", "file", some 5⟩] :=
  ⟨by decide, by decide⟩

/-- C8 (amended): the `/edit` endpoint applies the batch in descending
`line_start` order with ties kept in input order (Python's `sorted` is
stable), so the result is independent of the input order **provided the
`line_start` values are pairwise distinct**; with a tied `line_start`
the input order matters. -/
theorem C8_order_independence (lines : List (List Char))
    (edits1 edits2 : List FilesRouter.EditOperation) (hperm : edits1.Perm edits2)
    (hnd : (edits1.map (fun e => e.line_start)).Nodup) :
    FilesRouter.apply_edits lines edits1 = FilesRouter.apply_edits lines edits2 := by
  have htr : ∀ a b c : FilesRouter.EditOperation,
      FilesRouter.descByLineStart a b = true → FilesRouter.descByLineStart b c = true →
      FilesRouter.descByLineStart a c = true := by
    intro a b c h1 h2
    simp only [FilesRouter.descByLineStart, Nat.ble_eq] at h1 h2 ⊢
    omega
  have hto : ∀ a b : FilesRouter.EditOperation,
      FilesRouter.descByLineStart a b = true ∨ FilesRouter.descByLineStart b a = true := by
    intro a b
    simp only [FilesRouter.descByLineStart, Nat.ble_eq]
    omega
  have hs1 : (isortBy FilesRouter.descByLineStart edits1).Pairwise
      (fun a b => (fun e : FilesRouter.EditOperation => e.line_start) b ≤
        (fun e : FilesRouter.EditOperation => e.line_start) a) :=
    (isortBy_pairwise FilesRouter.descByLineStart htr hto edits1).imp
      (by intro a b h; simpa [FilesRouter.descByLineStart, Nat.ble_eq] using h)
  have hs2 : (isortBy FilesRouter.descByLineStart edits2).Pairwise
      (fun a b => (fun e : FilesRouter.EditOperation => e.line_start) b ≤
        (fun e : FilesRouter.EditOperation => e.line_start) a) :=
    (isortBy_pairwise FilesRouter.descByLineStart htr hto edits2).imp
      (by intro a b h; simpa [FilesRouter.descByLineStart, Nat.ble_eq] using h)
  have hperm2 : (isortBy FilesRouter.descByLineStart edits1).Perm
      (isortBy FilesRouter.descByLineStart edits2) :=
    ((isortBy_perm _ edits1).trans hperm).trans (isortBy_perm _ edits2).symm
  have hnd2 : ((isortBy FilesRouter.descByLineStart edits1).map
      (fun e : FilesRouter.EditOperation => e.line_start)).Nodup :=
    (((isortBy_perm FilesRouter.descByLineStart edits1).map _).symm).nodup hnd
  have hsort : isortBy FilesRouter.descByLineStart edits1 =
      isortBy FilesRouter.descByLineStart edits2 :=
    sorted_nodupkeys_unique (fun e => e.line_start) _ _ hperm2 hs1 hs2 hnd2
  unfold FilesRouter.apply_edits
  rw [hsort]

/-- Witness for C8: two distinct-line edits give the same file content
in either submission order. -/
theorem C8_order_independence_witness :
    FilesRouter.apply_edits [['x', '\n']]
        [⟨.insert, 1, none, some "a"⟩, ⟨.insert, 2, none, some "c"⟩] =
      FilesRouter.apply_edits [['x', '\n']]
        [⟨.insert, 2, none, some "c"⟩, ⟨.insert, 1, none, some "a"⟩] :=
  C8_order_independence [['x', '\n']]
    ([⟨.insert, 1, none, some "a"⟩, ⟨.insert, 2, none, some "c"⟩] :
      List FilesRouter.EditOperation)
    ([⟨.insert, 2, none, some "c"⟩, ⟨.insert, 1, none, some "a"⟩] :
      List FilesRouter.EditOperation)
    (List.Perm.swap (⟨.insert, 2, none, some "c"⟩ : FilesRouter.EditOperation)
      ⟨.insert, 1, none, some "a"⟩ [])
    (by decide)

/-- Counterexample to C8 as stated: two inserts at the same
`line_start` produce different file contents depending on the input
order (the stable sort keeps ties in input order), so the result does
depend on the order of the batch. -/
theorem C8_tied_line_start_counterexample :
    FilesRouter.apply_edits [['x', '\n']]
        [⟨.insert, 1, none, some "a"⟩, ⟨.insert, 1, none, some "b"⟩] =
      [['b', '\n'], ['a', '\n'], ['x', '\n']] ∧
    FilesRouter.apply_edits [['x', '\n']]
        [⟨.insert, 1, none, some "b"⟩, ⟨.insert, 1, none, some "a"⟩] =
      [['a', '\n'], ['b', '\n'], ['x', '\n']] ∧
    FilesRouter.apply_edits [['x', '\n']]
        [⟨.insert, 1, none, some "a"⟩, ⟨.insert, 1, none, some "b"⟩] ≠
      FilesRouter.apply_edits [['x', '\n']]
        [⟨.insert, 1, none, some "b"⟩, ⟨.insert, 1, none, some "a"⟩] :=
  ⟨by decide, by decide, by decide⟩

/-- C10 (amended): `edits_applied` always equals the number of
submitted edit operations; an out-of-range `delete` is a silent no-op
that still counts, while an out-of-range `replace` or `insert` is not a
no-op — it appends its (newline-normalised) content at the end of the
file — and also still counts. -/
theorem C10_edits_applied_count (original : List (List Char))
    (edits : List FilesRouter.EditOperation) :
    (FilesRouter.edit_file original edits).edits_applied = edits.length ∧
    (∀ e : FilesRouter.EditOperation, e.action = .delete →
      original.length ≤ e.line_start - 1 →
      FilesRouter.apply_edit original e = original) ∧
    (∀ e : FilesRouter.EditOperation, e.action = .replace →
      original.length ≤ e.line_start - 1 →
      FilesRouter.apply_edit original e = original ++ FilesRouter.contentLines e.content) ∧
    (∀ e : FilesRouter.EditOperation, e.action = .insert →
      original.length ≤ e.line_start - 1 →
      FilesRouter.apply_edit original e = original ++ FilesRouter.contentLines e.content) := by
  refine ⟨rfl, ?_, ?_, ?_⟩ <;> intro e ha hlen <;>
    simp [FilesRouter.apply_edit, ha, pySliceSet_of_le_start _ _ _ _ hlen]

/-- Witness for C10: an out-of-range delete on a one-line file leaves
it unchanged. -/
theorem C10_edits_applied_count_witness :
    FilesRouter.apply_edit [['A', '\n']] ⟨.delete, 10, none, none⟩ = [['A', '\n']] :=
  (C10_edits_applied_count [['A', '\n']] []).2.1 ⟨.delete, 10, none, none⟩ rfl (by decide)

/-- Counterexample to C10 as stated: a `replace` targeting line 10 of a
one-line file is **not** a silent no-op — it appends `X\n` — although it
still counts towards `edits_applied`. -/
theorem C10_out_of_range_replace_counterexample :
    (FilesRouter.edit_file [['A', '\n']] [⟨.replace, 10, some 10, some "X"⟩]).edits_applied = 1 ∧
    (FilesRouter.edit_file [['A', '\n']] [⟨.replace, 10, some 10, some "X"⟩]).new_lines =
      [['A', '\n'], ['X', '\n']] ∧
    (FilesRouter.edit_file [['A', '\n']] [⟨.replace, 10, some 10, some "X"⟩]).new_lines ≠
      [['A', '\n']] :=
  ⟨rfl, by decide, by decide⟩

end Mira
